import Mathlib

/-!
Verification of the two CLI entry points of the YOLOv6 repository,
`tools/train.py` and `tools/infer.py`.

The scripts are modelled by a shallow embedding: every function becomes a
pure Lean function, side effects (logging, directory creation, process-group
calls, construction of the external `Trainer` / `Inferer` objects) become an
explicit trace of `Event`s, and the filesystem is an explicit read-only
structure of predicates. Collaborator modules (`yolov6.utils.*`,
`yolov6.core.*`) are not part of the supplied source, so their functions are
abstract fields of an `Env` record; the embedding only fixes how the entry
scripts call them.
-/

set_option autoImplicit false

namespace YOLOv6

/-- Value of `args.resume` in `tools/train.py`: argparse is declared with
`nargs='?', const=True, default=False`, so at runtime the attribute is either
a Python `bool` or a `str`. -/
inductive ResumeVal where
  | bool (b : Bool)
  | str (s : String)
  deriving DecidableEq, Repr

/-- Python truthiness of `args.resume` as tested by `if args.resume:`
(line 85 of train.py): a boolean is its own truth value, a string is truthy
iff non-empty. -/
def ResumeVal.truthy : ResumeVal → Bool
  | .bool b => b
  | .str s => s != ""

/-- Characters strictly before the last `/` of a path: a character is kept
exactly when a `/` occurs after it. -/
def parentChars : List Char → List Char
  | [] => []
  | c :: cs => if cs.contains '/' then c :: parentChars cs else []

/-- POSIX-flavoured model of `Path(p).parent`: drop the last `/`-separated
component, keeping everything before the final `/`. -/
def pathParent (p : String) : String :=
  String.mk (parentChars p.data)

/-- Model of `os.path.join a b` (and of `Path(a) / b`) for a relative second
component, which is the only way the scripts use it. -/
def pathJoin (a b : String) : String := a ++ "/" ++ b

/-- The flat argument record built by `get_args_parser` in `tools/train.py`
(plus the `rank` / `world_size` / `local_rank` fields `main` fills from
`get_envs()`, and the `save_dir` field `check_and_init` establishes;
`save_dir` is `""` until set). Fields not consulted by the embedded control
flow are still carried so that frame properties about the whole record are
meaningful. -/
structure Args where
  dataPath : String := "./data/coco.yaml"
  confFile : String := "./configs/yolov6n.py"
  imgSize : Nat := 640
  rect : Bool := false
  batchSize : Nat := 32
  epochs : Nat := 400
  workers : Nat := 8
  device : String := "0"
  outputDir : String := "./runs/train"
  name : String := "exp"
  distUrl : String := "env://"
  localRank : Int := -1
  resume : ResumeVal := .bool false
  quant : Bool := false
  calib : Bool := false
  specificShape : Bool := false
  height : Nat := 0
  width : Nat := 0
  rank : Int := -1
  worldSize : Int := 1
  saveDir : String := ""
  deriving DecidableEq, Repr

/-- The filesystem facts the scripts consult: `os.path.isfile`,
`os.path.exists` / `osp.exists`, and the argument record stored in an
`args.yaml` file as read back by `yaml.safe_load` +
`argparse.Namespace(**·)` (train.py line 93). -/
structure FS where
  isFile : String → Bool
  pathExists : String → Bool
  yamlArgs : String → Args

/-- The collaborator functions imported from `yolov6.utils.*` and the
environment probes; their code is outside the supplied source, so they are
abstract. `getEnvs` models `get_envs()` returning
`(local_rank, rank, world_size)` from environment variables, which do not
change during a run. -/
structure Env where
  findLatestCheckpoint : String
  incrementName : String → String
  checkImgSize : Nat → Nat → Nat → Nat
  configOf : String → String
  selectDevice : String → String
  getEnvs : Int × Int × Int
  ncclAvailable : Bool

/-- Observable effects of a run, in program order. `saveDirResolved d` marks
the program point at which `args.save_dir` is finally established (end of the
`if args.resume:` statement, train.py lines 93 / 98 / 101). -/
inductive Event where
  | logInfo (msg : String)
  | logWarning (msg : String)
  | makedirs (path : String)
  | saveDirResolved (dir : String)
  | checkImgSizeEv (size stride floorV : Nat)
  | loadConfig (file : String)
  | selectDeviceEv (device : String)
  | setRandomSeedEv (seed : Int) (deterministic : Bool)
  | saveYamlEv (path : String)
  | setCudaDevice (localRank : Int)
  | initProcessGroup (backend : String) (rank worldSize : Int)
  | destroyProcessGroup
  | constructTrainer
  | callCalibrate
  | callTrain
  | constructInferer
  | callInfer
  deriving DecidableEq, Repr

/-! ### The `torch.load` monkey patch (train.py lines 26-37, infer.py 19-30)

Both entry scripts contain the identical patch: `torch.load` is rebound
during import to `custom_torch_load`, which forwards to the saved original
after forcing `weights_only=False` when the caller did not pass that keyword.
Keyword argument dictionaries are modelled as association lists. -/

/-- A Python value appearing in a kwargs dictionary. -/
inductive PyVal where
  | bool (b : Bool)
  | str (s : String)
  | int (n : Int)
  | pyNone
  deriving DecidableEq, Repr

/-- A Python `**kwargs` dictionary. -/
abbrev Kwargs := List (String × PyVal)

/-- Membership test `k in kwargs`. -/
def Kwargs.hasKey (ks : Kwargs) (k : String) : Bool :=
  ks.any (fun kv => kv.1 == k)

/-- Dictionary update `kwargs[k] = v`: overwrite in place if present,
append otherwise. -/
def Kwargs.setKey (ks : Kwargs) (k : String) (v : PyVal) : Kwargs :=
  if ks.hasKey k then ks.map (fun kv => if kv.1 == k then (k, v) else kv)
  else ks ++ [(k, v)]

/-- Dictionary lookup `kwargs.get(k)`. -/
def Kwargs.getKey (ks : Kwargs) (k : String) : Option PyVal :=
  (ks.find? (fun kv => kv.1 == k)).map Prod.snd

/-- The kwargs dictionary `custom_torch_load` actually hands to the saved
original `torch.load`: lines 29-32 of train.py (identical in infer.py). -/
def custom_torch_load_kwargs (kwargs : Kwargs) : Kwargs :=
  if !(kwargs.hasKey "weights_only") then
    kwargs.setKey "weights_only" (PyVal.bool false)
  else kwargs

/-- Model of `custom_torch_load`: forward to the original `torch.load`
(abstracted as `original`) with the adjusted kwargs. After the module-level
rebinding `torch.load = custom_torch_load`, this is what every later
`torch.load` call runs. -/
def custom_torch_load {α : Type} (original : Kwargs → α) (kwargs : Kwargs) : α :=
  original (custom_torch_load_kwargs kwargs)

theorem Kwargs.getKey_append_single (ks : Kwargs) (k : String) (v : PyVal)
    (h : ks.hasKey k = false) :
    Kwargs.getKey (ks ++ [(k, v)]) k = some v := by
  induction ks with
  | nil => simp [Kwargs.getKey]
  | cons kv rest ih =>
      simp only [Kwargs.hasKey, List.any_cons, Bool.or_eq_false_iff] at h
      simp only [List.cons_append, Kwargs.getKey, List.find?]
      rw [h.1]
      exact ih h.2

theorem Kwargs.getKey_append_single_ne (ks : Kwargs) (k k' : String) (v : PyVal)
    (h : k' ≠ k) :
    Kwargs.getKey (ks ++ [(k, v)]) k' = Kwargs.getKey ks k' := by
  induction ks with
  | nil =>
      have hk : (k == k') = false := by
        simp only [beq_eq_false_iff_ne]
        exact fun hk => h hk.symm
      simp [Kwargs.getKey, List.find?, hk]
  | cons kv rest ih =>
      simp only [List.cons_append, Kwargs.getKey, List.find?]
      cases hkv : (kv.1 == k') with
      | true => simp
      | false => simpa [Kwargs.getKey] using ih

/-! ### `tools/infer.py` -/

namespace Infer

/-- The parameters of infer.py's `run` that its directory-handling prologue
(lines 107-120) and its epilogue consult. The remaining parameters are passed
through unchanged to the external `Inferer` and never branch the control
flow, so they are not carried. -/
structure RunArgs where
  saveTxt : Bool := false
  notSaveImg : Bool := false
  saveDir : Option String := none
  project : String := "runs/inference"
  name : String := "exp"
  deriving DecidableEq, Repr

/-- The save directory `run` settles on (infer.py lines 108-112):
`project/name` when no explicit `save_dir` was given, else the given one. -/
def runSaveDir (p : RunArgs) : String :=
  match p.saveDir with
  | none => pathJoin p.project p.name
  | some d => d

/-- Model of infer.py's `run` (lines 107-127): directory handling, then one
`Inferer` construction and one `infer` call, then the results log line.
The initial binding of `save_txt_path` on lines 110 / 112 is dead: line 118
reassigns it before its only use, so the model elides it. -/
def run (fs : FS) (p : RunArgs) : List Event :=
  let save_dir := runSaveDir p
  let t1 := if (!p.notSaveImg || p.saveTxt) && !(fs.pathExists save_dir) then
      [Event.makedirs save_dir]
    else [Event.logWarning "Save directory already existed"]
  let t2 := if p.saveTxt then
      let save_txt_path := pathJoin save_dir "labels"
      if !(fs.pathExists save_txt_path) then [Event.makedirs save_txt_path] else []
    else []
  let t3 := [Event.constructInferer, Event.callInfer]
  let t4 := if p.saveTxt || !p.notSaveImg then
      [Event.logInfo ("Results saved to " ++ save_dir)]
    else []
  t1 ++ t2 ++ t3 ++ t4

end Infer

/-! ### `tools/train.py` -/

namespace Train

/-- The `master_process` flag of `check_and_init` (train.py line 84). -/
def masterProcess (args : Args) : Bool :=
  if args.worldSize > 1 then args.rank == 0 else args.rank == -1

/-- Resolution of the checkpoint path (train.py line 87): a string resume
value is the path itself, otherwise `find_latest_checkpoint()` is consulted. -/
def resolveCheckpoint (env : Env) (r : ResumeVal) : String :=
  match r with
  | .str s => s
  | .bool _ => env.findLatestCheckpoint

/-- The path `Path(checkpoint_path).parent.parent / 'args.yaml'`
(train.py line 90). -/
def resumeOptFilePath (checkpoint_path : String) : String :=
  pathJoin (pathParent (pathParent checkpoint_path)) "args.yaml"

/-- Train.py lines 85-103: the `if args.resume:` statement of
`check_and_init`. On resume, the checkpoint path is resolved and asserted to
be a file; the sibling `args.yaml` snapshot, when present, replaces the whole
argument record, otherwise a warning is logged and `save_dir` is pointed at
the checkpoint's grandparent; finally `args.resume` is overwritten with the
checkpoint path. Without resume, a fresh incremented save directory is
chosen and (on the master process) created. Returns the assertion message on
failure. -/
def resumeOrNewSaveDir (env : Env) (fs : FS) (args : Args)
    (master_process : Bool) : Except String (List Event × Args) :=
  if args.resume.truthy then
    if fs.isFile (resolveCheckpoint env args.resume) then
      if fs.pathExists (resumeOptFilePath (resolveCheckpoint env args.resume)) then
        Except.ok
          ([Event.logInfo ("Resume training from the checkpoint file :"
              ++ resolveCheckpoint env args.resume),
            Event.saveDirResolved
              (fs.yamlArgs (resumeOptFilePath (resolveCheckpoint env args.resume))).saveDir],
           { fs.yamlArgs (resumeOptFilePath (resolveCheckpoint env args.resume)) with
             resume := ResumeVal.str (resolveCheckpoint env args.resume) })
      else
        Except.ok
          ([Event.logInfo ("Resume training from the checkpoint file :"
              ++ resolveCheckpoint env args.resume),
            Event.logWarning ("We can not find the path of "
              ++ resumeOptFilePath (resolveCheckpoint env args.resume)
              ++ ", we will save exp log to "
              ++ pathParent (pathParent (resolveCheckpoint env args.resume))),
            Event.logWarning
              "In this case, make sure to provide configuration, such as data, batch size.",
            Event.saveDirResolved
              (pathParent (pathParent (resolveCheckpoint env args.resume)))],
           { args with
             saveDir := pathParent (pathParent (resolveCheckpoint env args.resume)),
             resume := ResumeVal.str (resolveCheckpoint env args.resume) })
    else
      Except.error ("the checkpoint path is not exist: "
        ++ resolveCheckpoint env args.resume)
  else
    if master_process then
      Except.ok
        ([Event.makedirs (env.incrementName (pathJoin args.outputDir args.name)),
          Event.saveDirResolved (env.incrementName (pathJoin args.outputDir args.name))],
         { args with saveDir := env.incrementName (pathJoin args.outputDir args.name) })
    else
      Except.ok
        ([Event.saveDirResolved (env.incrementName (pathJoin args.outputDir args.name))],
         { args with saveDir := env.incrementName (pathJoin args.outputDir args.name) })

/-- Train.py lines 105-112: image-size validation through `check_img_size`
with stride 32 and floor 256, applied to `height` and `width` under
`specific_shape` (with a warning when `rect` is also set), else to
`img_size`. -/
def checkSpecificShape (env : Env) (args : Args) : List Event × Args :=
  if args.specificShape then
    ((if args.rect then
        [Event.logWarning "You set specific shape, and rect to True is needless. YOLOv6 will use the specific shape to train."]
      else []) ++
     [Event.checkImgSizeEv args.height 32 256,
      Event.checkImgSizeEv args.width 32 256],
     { args with height := env.checkImgSize args.height 32 256,
                 width := env.checkImgSize args.width 32 256 })
  else
    ([Event.checkImgSizeEv args.imgSize 32 256],
     { args with imgSize := env.checkImgSize args.imgSize 32 256 })

/-- Result of a completed `check_and_init` call: the effect trace, the loaded
config, the selected device and the updated argument record. -/
structure CAIOut where
  trace : List Event
  cfg : String
  device : String
  args : Args
  deriving DecidableEq, Repr

/-- Model of `check_and_init` (train.py lines 81-125): save-dir / resume
handling, image-size validation, config load (the `training_mode` default
applied to the config object is internal to the abstract config value),
device selection, RNG seeding, and the `args.yaml` snapshot written by the
master process. An assertion failure is returned as `Except.error` with the
assertion message. -/
def check_and_init (env : Env) (fs : FS) (args0 : Args) : Except String CAIOut :=
  match resumeOrNewSaveDir env fs args0 (masterProcess args0) with
  | Except.error msg => Except.error msg
  | Except.ok (t1, args1) =>
    Except.ok ⟨t1 ++ (checkSpecificShape env args1).1 ++
        [Event.loadConfig (checkSpecificShape env args1).2.confFile,
         Event.selectDeviceEv (checkSpecificShape env args1).2.device,
         Event.setRandomSeedEv (1 + (checkSpecificShape env args1).2.rank)
           ((checkSpecificShape env args1).2.rank == -1)] ++
        (if masterProcess args0 then
           [Event.saveYamlEv (pathJoin (checkSpecificShape env args1).2.saveDir "args.yaml")]
         else []),
      env.configOf (checkSpecificShape env args1).2.confFile,
      env.selectDevice (checkSpecificShape env args1).2.device,
      (checkSpecificShape env args1).2⟩

/-- The effect of `args.local_rank, args.rank, args.world_size = get_envs()`
(train.py lines 131 and 134). -/
def withEnvs (env : Env) (a : Args) : Args :=
  { a with localRank := env.getEnvs.1, rank := env.getEnvs.2.1,
           worldSize := env.getEnvs.2.2 }

/-- Model of `main` (train.py lines 128-154): env reload, `check_and_init`,
env reload again, optional DDP process-group initialization (note line 140
passes `args.local_rank` as the group rank), one `Trainer` construction, the
calibrate early return under `quant and calib`, else `train`, and the
process-group teardown guarded by `world_size > 1 and rank == 0`. -/
def main (env : Env) (fs : FS) (argsIn : Args) : Except String (List Event) :=
  match check_and_init env fs (withEnvs env argsIn) with
  | Except.error msg => Except.error msg
  | Except.ok out =>
    if (withEnvs env out.args).quant && (withEnvs env out.args).calib then
      Except.ok (out.trace ++ [Event.logInfo "training args are: ..."] ++
        (if (withEnvs env out.args).localRank != -1 then
           [Event.setCudaDevice (withEnvs env out.args).localRank,
            Event.logInfo "Initializing process group... ",
            Event.initProcessGroup (if env.ncclAvailable then "nccl" else "gloo")
              (withEnvs env out.args).localRank (withEnvs env out.args).worldSize]
         else []) ++
        [Event.constructTrainer] ++ [Event.callCalibrate])
    else
      Except.ok (out.trace ++ [Event.logInfo "training args are: ..."] ++
        (if (withEnvs env out.args).localRank != -1 then
           [Event.setCudaDevice (withEnvs env out.args).localRank,
            Event.logInfo "Initializing process group... ",
            Event.initProcessGroup (if env.ncclAvailable then "nccl" else "gloo")
              (withEnvs env out.args).localRank (withEnvs env out.args).worldSize]
         else []) ++
        [Event.constructTrainer] ++ [Event.callTrain] ++
        (if (withEnvs env out.args).worldSize > 1 && (withEnvs env out.args).rank == 0 then
           [Event.logInfo "Destroying process group... ", Event.destroyProcessGroup]
         else []))

end Train

/-! ### Trace observation helpers -/

/-- Recognizer for the save-dir resolution marker. -/
def Event.isSaveDirResolvedE : Event → Bool
  | .saveDirResolved _ => true
  | _ => false

/-- Recognizer for image-size validation events. -/
def Event.isImgCheckE : Event → Bool
  | .checkImgSizeEv _ _ _ => true
  | _ => false

/-- Recognizer for the device-selection event. -/
def Event.isSelectDeviceE : Event → Bool
  | .selectDeviceEv _ => true
  | _ => false

/-- Recognizer for the RNG-seeding event. -/
def Event.isSeedE : Event → Bool
  | .setRandomSeedEv _ _ => true
  | _ => false

/-- Recognizer for the process-group initialization event. -/
def Event.isInitPGE : Event → Bool
  | .initProcessGroup _ _ _ => true
  | _ => false

/-- Recognizer for the `Trainer` construction event. -/
def Event.isTrainerE : Event → Bool
  | .constructTrainer => true
  | _ => false

/-- Recognizer for the hand-off to the constructed trainer: a `train` or
`calibrate` call. -/
def Event.isHandOffE : Event → Bool
  | .callTrain => true
  | .callCalibrate => true
  | _ => false

/-- Events the resume / save-dir block (train.py lines 85-103) can emit. -/
def Event.isResumePhaseE : Event → Bool
  | .logInfo _ => true
  | .logWarning _ => true
  | .makedirs _ => true
  | .saveDirResolved _ => true
  | _ => false

/-- Index of the first event satisfying `p` in a trace. -/
def firstIdx (p : Event → Bool) : List Event → Option Nat
  | [] => none
  | e :: es => if p e then some 0 else (firstIdx p es).map (· + 1)

/-- The first `p`-event of the trace comes strictly before the first
`q`-event. -/
def OccursBefore (tr : List Event) (p q : Event → Bool) : Prop :=
  ∃ i j, firstIdx p tr = some i ∧ firstIdx q tr = some j ∧ i < j

theorem firstIdx_append_of_some (p : Event → Bool) (l1 l2 : List Event) (i : Nat)
    (h : firstIdx p l1 = some i) : firstIdx p (l1 ++ l2) = some i := by
  induction l1 generalizing i with
  | nil => simp [firstIdx] at h
  | cons e es ih =>
      simp only [firstIdx, List.cons_append, List.append_eq] at h ⊢
      cases hp : p e with
      | true =>
          rw [hp] at h
          rw [if_pos rfl] at h ⊢
          exact h
      | false =>
          rw [hp] at h
          rw [if_neg (by simp)] at h ⊢
          rcases Option.map_eq_some'.mp h with ⟨j, hj, hji⟩
          rw [ih j hj]
          simpa using hji

theorem firstIdx_append_of_none (p : Event → Bool) (l1 l2 : List Event)
    (h : firstIdx p l1 = none) :
    firstIdx p (l1 ++ l2) = (firstIdx p l2).map (· + l1.length) := by
  induction l1 with
  | nil =>
      simp only [List.nil_append, List.length_nil]
      cases firstIdx p l2 <;> simp
  | cons e es ih =>
      simp only [firstIdx, List.cons_append, List.append_eq] at h ⊢
      cases hp : p e with
      | true =>
          rw [hp] at h
          rw [if_pos rfl] at h
          exact absurd h (by simp)
      | false =>
          rw [hp] at h
          rw [if_neg (by simp)] at h ⊢
          have hes : firstIdx p es = none := by
            cases hfi : firstIdx p es with
            | none => rfl
            | some j => rw [hfi] at h; exact absurd h (by simp)
          rw [ih hes]
          cases firstIdx p l2 with
          | none => simp
          | some j =>
              simp only [Option.map_some', Option.some.injEq, List.length_cons]
              omega

theorem firstIdx_eq_none_of_forall (p : Event → Bool) (l : List Event)
    (h : ∀ e ∈ l, p e = false) : firstIdx p l = none := by
  induction l with
  | nil => rfl
  | cons e es ih =>
      simp only [firstIdx]
      rw [h e (List.mem_cons_self e es), ih (fun x hx => h x (List.mem_cons_of_mem e hx))]
      rfl

theorem firstIdx_isSome_of_mem (p : Event → Bool) (l : List Event) (e : Event)
    (he : e ∈ l) (hp : p e = true) : ∃ i, firstIdx p l = some i := by
  induction l with
  | nil => cases he
  | cons x xs ih =>
      simp only [firstIdx]
      cases hx : p x with
      | true => exact ⟨0, rfl⟩
      | false =>
          rcases List.mem_cons.mp he with rfl | hmem
          · rw [hp] at hx; cases hx
          · rcases ih hmem with ⟨i, hi⟩
            exact ⟨i + 1, by rw [hi]; rfl⟩

theorem firstIdx_lt_length (p : Event → Bool) (l : List Event) (i : Nat)
    (h : firstIdx p l = some i) : i < l.length := by
  induction l generalizing i with
  | nil => simp [firstIdx] at h
  | cons e es ih =>
      simp only [firstIdx] at h
      cases hp : p e with
      | true =>
          rw [hp] at h
          rw [if_pos rfl] at h
          simp only [Option.some.injEq] at h
          simp only [List.length_cons]
          omega
      | false =>
          rw [hp] at h
          rw [if_neg (by simp)] at h
          rcases Option.map_eq_some'.mp h with ⟨j, hj, hji⟩
          have := ih j hj
          simp only [List.length_cons]
          omega

theorem exists_firstIdx_append_left (p : Event → Bool) (l1 l2 : List Event)
    (h : ∃ i, firstIdx p l1 = some i) : ∃ k, firstIdx p (l1 ++ l2) = some k := by
  rcases h with ⟨i, hi⟩
  exact ⟨i, firstIdx_append_of_some p l1 l2 i hi⟩

theorem exists_firstIdx_append_right (p : Event → Bool) (l1 l2 : List Event)
    (h1 : firstIdx p l1 = none) (h : ∃ j, firstIdx p l2 = some j) :
    ∃ k, firstIdx p (l1 ++ l2) = some k := by
  rcases h with ⟨j, hj⟩
  exact ⟨j + l1.length, by rw [firstIdx_append_of_none p l1 l2 h1, hj]; rfl⟩

theorem occursBefore_append_of_left (l1 l2 : List Event) (p q : Event → Bool)
    (h : OccursBefore l1 p q) : OccursBefore (l1 ++ l2) p q := by
  rcases h with ⟨i, j, hi, hj, hij⟩
  exact ⟨i, j, firstIdx_append_of_some p l1 l2 i hi,
         firstIdx_append_of_some q l1 l2 j hj, hij⟩

theorem occursBefore_append_left (l1 l2 : List Event) (p q : Event → Bool)
    (hp : firstIdx p l1 = none) (hq : firstIdx q l1 = none)
    (h : OccursBefore l2 p q) : OccursBefore (l1 ++ l2) p q := by
  rcases h with ⟨i, j, hi, hj, hij⟩
  refine ⟨i + l1.length, j + l1.length, ?_, ?_, by omega⟩
  · rw [firstIdx_append_of_none p l1 l2 hp, hi]; rfl
  · rw [firstIdx_append_of_none q l1 l2 hq, hj]; rfl

/-- Events the image-size validation block (train.py lines 105-112) can
emit. -/
def Event.isShapePhaseE : Event → Bool
  | .checkImgSizeEv _ _ _ => true
  | .logWarning _ => true
  | _ => false

/-- Events a completed `check_and_init` can have emitted (everything up to
and including the `args.yaml` snapshot write; no process-group, trainer or
inferer activity). -/
def Event.isSetupE : Event → Bool
  | .logInfo _ => true
  | .logWarning _ => true
  | .makedirs _ => true
  | .saveDirResolved _ => true
  | .checkImgSizeEv _ _ _ => true
  | .loadConfig _ => true
  | .selectDeviceEv _ => true
  | .setRandomSeedEv _ _ => true
  | .saveYamlEv _ => true
  | _ => false

theorem occursBefore_append_right (l1 l2 : List Event) (p q : Event → Bool)
    (hp : ∃ i, firstIdx p l1 = some i) (hq1 : firstIdx q l1 = none)
    (hq2 : ∃ j, firstIdx q l2 = some j) : OccursBefore (l1 ++ l2) p q := by
  rcases hp with ⟨i, hi⟩
  rcases hq2 with ⟨j, hj⟩
  refine ⟨i, j + l1.length, firstIdx_append_of_some p l1 l2 i hi, ?_, ?_⟩
  · rw [firstIdx_append_of_none q l1 l2 hq1, hj]; rfl
  · have := firstIdx_lt_length p l1 i hi
    omega

/-! ### Structural lemmas about `check_and_init` -/

namespace Train

theorem check_and_init_ok_shape (env : Env) (fs : FS) (a : Args) (out : CAIOut)
    (h : check_and_init env fs a = Except.ok out) :
    ∃ t1 a1,
      resumeOrNewSaveDir env fs a (masterProcess a) = Except.ok (t1, a1) ∧
      out.args = (checkSpecificShape env a1).2 ∧
      out.cfg = env.configOf (checkSpecificShape env a1).2.confFile ∧
      out.trace = t1 ++ (checkSpecificShape env a1).1 ++
        [Event.loadConfig (checkSpecificShape env a1).2.confFile,
         Event.selectDeviceEv (checkSpecificShape env a1).2.device,
         Event.setRandomSeedEv (1 + (checkSpecificShape env a1).2.rank)
           ((checkSpecificShape env a1).2.rank == -1)] ++
        (if masterProcess a then
           [Event.saveYamlEv (pathJoin (checkSpecificShape env a1).2.saveDir "args.yaml")]
         else []) := by
  unfold check_and_init at h
  cases hr : resumeOrNewSaveDir env fs a (masterProcess a) with
  | error msg => rw [hr] at h; cases h
  | ok pr =>
      rw [hr] at h
      obtain ⟨t1, a1⟩ := pr
      cases h
      exact ⟨t1, a1, rfl, rfl, rfl, rfl⟩

theorem check_and_init_error_of_resume_error (env : Env) (fs : FS) (a : Args)
    (msg : String)
    (h : resumeOrNewSaveDir env fs a (masterProcess a) = Except.error msg) :
    check_and_init env fs a = Except.error msg := by
  unfold check_and_init
  rw [h]

theorem resume_trace_phase (env : Env) (fs : FS) (a : Args) (mp : Bool)
    (t1 : List Event) (a1 : Args)
    (h : resumeOrNewSaveDir env fs a mp = Except.ok (t1, a1)) :
    ∀ e ∈ t1, e.isResumePhaseE = true := by
  unfold resumeOrNewSaveDir at h
  split at h
  · split at h
    · split at h
      · cases h
        intro e he
        simp only [List.mem_cons, List.not_mem_nil, or_false] at he
        rcases he with rfl | rfl
        all_goals rfl
      · cases h
        intro e he
        simp only [List.mem_cons, List.not_mem_nil, or_false] at he
        rcases he with rfl | rfl | rfl | rfl
        all_goals rfl
    · cases h
  · split at h
    · cases h
      intro e he
      simp only [List.mem_cons, List.not_mem_nil, or_false] at he
      rcases he with rfl | rfl
      all_goals rfl
    · cases h
      intro e he
      simp only [List.mem_cons, List.not_mem_nil, or_false] at he
      rcases he with rfl
      rfl

theorem resume_trace_has_saveDirResolved (env : Env) (fs : FS) (a : Args)
    (mp : Bool) (t1 : List Event) (a1 : Args)
    (h : resumeOrNewSaveDir env fs a mp = Except.ok (t1, a1)) :
    ∃ d, Event.saveDirResolved d ∈ t1 := by
  unfold resumeOrNewSaveDir at h
  split at h
  · split at h
    · split at h
      · cases h
        exact ⟨(fs.yamlArgs (resumeOptFilePath (resolveCheckpoint env a.resume))).saveDir,
          by simp⟩
      · cases h
        exact ⟨pathParent (pathParent (resolveCheckpoint env a.resume)), by simp⟩
    · cases h
  · split at h
    · cases h
      exact ⟨env.incrementName (pathJoin a.outputDir a.name), by simp⟩
    · cases h
      exact ⟨env.incrementName (pathJoin a.outputDir a.name), by simp⟩

theorem shape_trace (env : Env) (a : Args) :
    (checkSpecificShape env a).1 =
      if a.specificShape then
        (if a.rect then
           [Event.logWarning "You set specific shape, and rect to True is needless. YOLOv6 will use the specific shape to train."]
         else []) ++
        [Event.checkImgSizeEv a.height 32 256, Event.checkImgSizeEv a.width 32 256]
      else [Event.checkImgSizeEv a.imgSize 32 256] := by
  by_cases hs : a.specificShape <;> simp [checkSpecificShape, hs]

theorem shape_trace_phase (env : Env) (a : Args) :
    ∀ e ∈ (checkSpecificShape env a).1, e.isShapePhaseE = true := by
  intro e he
  unfold checkSpecificShape at he
  split at he
  · simp only [List.mem_append, List.mem_cons, List.not_mem_nil, or_false] at he
    rcases he with he | rfl | rfl
    · split at he
      · simp only [List.mem_cons, List.not_mem_nil, or_false] at he
        subst he
        rfl
      · cases he
    · rfl
    · rfl
  · simp only [List.mem_cons, List.not_mem_nil, or_false] at he
    subst he
    rfl

theorem shape_args (env : Env) (a : Args) :
    (checkSpecificShape env a).2 =
      if a.specificShape then
        { a with height := env.checkImgSize a.height 32 256,
                 width := env.checkImgSize a.width 32 256 }
      else { a with imgSize := env.checkImgSize a.imgSize 32 256 } := by
  by_cases hs : a.specificShape <;> simp [checkSpecificShape, hs]

theorem shape_saveDir (env : Env) (a : Args) :
    (checkSpecificShape env a).2.saveDir = a.saveDir := by
  rw [shape_args]; by_cases hs : a.specificShape <;> simp [hs]

theorem shape_resume (env : Env) (a : Args) :
    (checkSpecificShape env a).2.resume = a.resume := by
  rw [shape_args]; by_cases hs : a.specificShape <;> simp [hs]

theorem shape_quant (env : Env) (a : Args) :
    (checkSpecificShape env a).2.quant = a.quant := by
  rw [shape_args]; by_cases hs : a.specificShape <;> simp [hs]

theorem shape_calib (env : Env) (a : Args) :
    (checkSpecificShape env a).2.calib = a.calib := by
  rw [shape_args]; by_cases hs : a.specificShape <;> simp [hs]

theorem resume_ok_resolved (env : Env) (fs : FS) (a : Args) (mp : Bool)
    (t1 : List Event) (a1 : Args)
    (ht : a.resume.truthy = true)
    (h : resumeOrNewSaveDir env fs a mp = Except.ok (t1, a1)) :
    a1.resume = ResumeVal.str (resolveCheckpoint env a.resume) ∧
    fs.isFile (resolveCheckpoint env a.resume) = true := by
  unfold resumeOrNewSaveDir at h
  rw [ht] at h
  rw [if_pos rfl] at h
  split at h
  · split at h
    · cases h; exact ⟨rfl, by assumption⟩
    · cases h; exact ⟨rfl, by assumption⟩
  · cases h

theorem resume_snapshot_branch (env : Env) (fs : FS) (a : Args) (mp : Bool)
    (t1 : List Event) (a1 : Args)
    (ht : a.resume.truthy = true)
    (hex : fs.pathExists (resumeOptFilePath (resolveCheckpoint env a.resume)) = true)
    (h : resumeOrNewSaveDir env fs a mp = Except.ok (t1, a1)) :
    a1 = { fs.yamlArgs (resumeOptFilePath (resolveCheckpoint env a.resume)) with
           resume := ResumeVal.str (resolveCheckpoint env a.resume) } := by
  unfold resumeOrNewSaveDir at h
  rw [ht] at h
  rw [if_pos rfl] at h
  cases hf : fs.isFile (resolveCheckpoint env a.resume) with
  | false =>
      rw [hf] at h
      rw [if_neg (by simp)] at h
      cases h
  | true =>
      rw [hf] at h
      rw [if_pos rfl] at h
      rw [hex] at h
      rw [if_pos rfl] at h
      cases h
      rfl

theorem resume_no_snapshot_branch (env : Env) (fs : FS) (a : Args) (mp : Bool)
    (ht : a.resume.truthy = true)
    (hf : fs.isFile (resolveCheckpoint env a.resume) = true)
    (hex : fs.pathExists (resumeOptFilePath (resolveCheckpoint env a.resume)) = false) :
    resumeOrNewSaveDir env fs a mp =
      Except.ok
        ([Event.logInfo ("Resume training from the checkpoint file :"
            ++ resolveCheckpoint env a.resume),
          Event.logWarning ("We can not find the path of "
            ++ resumeOptFilePath (resolveCheckpoint env a.resume)
            ++ ", we will save exp log to "
            ++ pathParent (pathParent (resolveCheckpoint env a.resume))),
          Event.logWarning
            "In this case, make sure to provide configuration, such as data, batch size.",
          Event.saveDirResolved
            (pathParent (pathParent (resolveCheckpoint env a.resume)))],
         { a with
           saveDir := pathParent (pathParent (resolveCheckpoint env a.resume)),
           resume := ResumeVal.str (resolveCheckpoint env a.resume) }) := by
  unfold resumeOrNewSaveDir
  rw [ht, if_pos rfl, hf, if_pos rfl, hex]
  rw [if_neg (by simp)]

theorem resume_not_file_error (env : Env) (fs : FS) (a : Args) (mp : Bool)
    (ht : a.resume.truthy = true)
    (hf : fs.isFile (resolveCheckpoint env a.resume) = false) :
    resumeOrNewSaveDir env fs a mp =
      Except.error ("the checkpoint path is not exist: "
        ++ resolveCheckpoint env a.resume) := by
  unfold resumeOrNewSaveDir
  rw [ht, if_pos rfl, hf]
  rw [if_neg (by simp)]

end Train

theorem resumePhase_setup (e : Event) (h : e.isResumePhaseE = true) :
    e.isSetupE = true := by
  cases e <;> simp_all [Event.isResumePhaseE, Event.isSetupE]

theorem shapePhase_setup (e : Event) (h : e.isShapePhaseE = true) :
    e.isSetupE = true := by
  cases e <;> simp_all [Event.isShapePhaseE, Event.isSetupE]

namespace Train

theorem cai_trace_setup (env : Env) (fs : FS) (a : Args) (out : CAIOut)
    (h : check_and_init env fs a = Except.ok out) :
    ∀ e ∈ out.trace, e.isSetupE = true := by
  obtain ⟨t1, a1, hr, _, _, htr⟩ := check_and_init_ok_shape env fs a out h
  intro e he
  rw [htr] at he
  simp only [List.mem_append] at he
  rcases he with ((he | he) | he) | he
  · exact resumePhase_setup e (resume_trace_phase env fs a _ t1 a1 hr e he)
  · exact shapePhase_setup e (shape_trace_phase env a1 e he)
  · simp only [List.mem_cons, List.not_mem_nil, or_false] at he
    rcases he with rfl | rfl | rfl <;> rfl
  · split at he
    · simp only [List.mem_cons, List.not_mem_nil, or_false] at he
      subst he
      rfl
    · cases he

theorem cai_count_zero (env : Env) (fs : FS) (a : Args) (out : CAIOut)
    (h : check_and_init env fs a = Except.ok out)
    (e : Event) (he : e.isSetupE = false) : out.trace.count e = 0 := by
  rw [List.count_eq_zero]
  intro hmem
  rw [cai_trace_setup env fs a out h e hmem] at he
  cases he

theorem cai_not_mem (env : Env) (fs : FS) (a : Args) (out : CAIOut)
    (h : check_and_init env fs a = Except.ok out)
    (e : Event) (he : e.isSetupE = false) : e ∉ out.trace := by
  intro hmem
  rw [cai_trace_setup env fs a out h e hmem] at he
  cases he

theorem main_ok_shape (env : Env) (fs : FS) (aIn : Args) (tr : List Event)
    (hm : main env fs aIn = Except.ok tr) :
    ∃ out, check_and_init env fs (withEnvs env aIn) = Except.ok out ∧
      tr = out.trace ++ [Event.logInfo "training args are: ..."] ++
        (if (withEnvs env out.args).localRank != -1 then
           [Event.setCudaDevice (withEnvs env out.args).localRank,
            Event.logInfo "Initializing process group... ",
            Event.initProcessGroup (if env.ncclAvailable then "nccl" else "gloo")
              (withEnvs env out.args).localRank (withEnvs env out.args).worldSize]
         else []) ++
        [Event.constructTrainer] ++
        (if (withEnvs env out.args).quant && (withEnvs env out.args).calib then
           [Event.callCalibrate]
         else [Event.callTrain] ++
           (if (withEnvs env out.args).worldSize > 1 &&
               (withEnvs env out.args).rank == 0 then
              [Event.logInfo "Destroying process group... ",
               Event.destroyProcessGroup]
            else [])) := by
  unfold main at hm
  cases hc : check_and_init env fs (withEnvs env aIn) with
  | error m => rw [hc] at hm; cases hm
  | ok out =>
      rw [hc] at hm
      dsimp only at hm
      refine ⟨out, rfl, ?_⟩
      by_cases hq : ((withEnvs env out.args).quant && (withEnvs env out.args).calib) = true
      · rw [if_pos hq] at hm
        cases hm
        rw [if_pos hq]
      · rw [if_neg hq] at hm
        cases hm
        rw [if_neg hq]
        simp only [List.append_assoc]

theorem withEnvs_quant (env : Env) (a : Args) : (withEnvs env a).quant = a.quant := rfl

theorem withEnvs_calib (env : Env) (a : Args) : (withEnvs env a).calib = a.calib := rfl

theorem withEnvs_localRank (env : Env) (a : Args) :
    (withEnvs env a).localRank = env.getEnvs.1 := rfl

theorem withEnvs_rank (env : Env) (a : Args) :
    (withEnvs env a).rank = env.getEnvs.2.1 := rfl

theorem withEnvs_worldSize (env : Env) (a : Args) :
    (withEnvs env a).worldSize = env.getEnvs.2.2 := rfl

end Train

/-! ### Concrete fixtures for evaluation theorems -/

/-- A concrete collaborator environment used by the evaluation theorems. -/
def envW : Env where
  findLatestCheckpoint := "runs/train/exp9/weights/last_ckpt.pt"
  incrementName := fun s => s ++ "1"
  checkImgSize := fun s _ f => max s f
  configOf := fun _ => "cfg"
  selectDevice := fun d => d
  getEnvs := (-1, -1, 1)
  ncclAvailable := false

/-- The argument record stored inside the `args.yaml` snapshot of the
concrete resume scenarios. -/
def snapArgs : Args :=
  { device := "cpu", name := "snapexp", saveDir := "runs/exp5", imgSize := 320,
    batchSize := 8, quant := false, calib := false }

/-- A filesystem with no files at all. -/
def fsEmpty : FS where
  isFile := fun _ => false
  pathExists := fun _ => false
  yamlArgs := fun _ => {}

/-- The checkpoint path of the concrete resume scenarios. -/
def ckptPath : String := "runs/exp5/weights/best.pt"

/-- A filesystem holding only the checkpoint file, no `args.yaml`. -/
def fsCkptOnly : FS where
  isFile := fun p => p == ckptPath
  pathExists := fun _ => false
  yamlArgs := fun _ => {}

/-- A filesystem holding the checkpoint file and its sibling `args.yaml`. -/
def fsCkptYaml : FS where
  isFile := fun p => p == ckptPath
  pathExists := fun p => p == "runs/exp5/args.yaml"
  yamlArgs := fun p => if p == "runs/exp5/args.yaml" then snapArgs else {}

/-- A CLI argument record resuming from an explicit checkpoint path. -/
def argsResumeW : Args := { resume := ResumeVal.str ckptPath }

/-- The all-defaults CLI argument record. -/
def argsDflt : Args := {}

/-- A quantized-calibration CLI argument record. -/
def argsQC : Args := { quant := true, calib := true }

/-- An environment whose probes report local_rank 1, rank 1, world_size 2:
a non-master distributed worker. -/
def envPG : Env := { envW with getEnvs := (1, 1, 2) }

/-- An environment whose probes report local_rank 0, rank 0, world_size 2:
the master of a two-process group. -/
def envPG0 : Env := { envW with getEnvs := (0, 0, 2) }

/-- Trace of the non-master distributed run. -/
def trPG : List Event := (Train.main envPG fsEmpty argsDflt).toOption.getD []

/-- Trace of the master distributed run. -/
def trPG0 : List Event := (Train.main envPG0 fsEmpty argsDflt).toOption.getD []

/-- `check_and_init` output of the master distributed run. -/
def outPG0 : Train.CAIOut :=
  (Train.check_and_init envPG0 fsEmpty (Train.withEnvs envPG0 argsDflt)).toOption.getD
    ⟨[], "", "", {}⟩

/-- Trace of the all-defaults single-process run. -/
def trDflt : List Event := (Train.main envW fsEmpty argsDflt).toOption.getD []

/-- `check_and_init` output of the all-defaults single-process run. -/
def outDflt : Train.CAIOut :=
  (Train.check_and_init envW fsEmpty (Train.withEnvs envW argsDflt)).toOption.getD
    ⟨[], "", "", {}⟩

/-- Trace of the quant-calibration run. -/
def trQC : List Event := (Train.main envW fsEmpty argsQC).toOption.getD []

/-- `check_and_init` output of the quant-calibration run. -/
def outQC : Train.CAIOut :=
  (Train.check_and_init envW fsEmpty (Train.withEnvs envW argsQC)).toOption.getD
    ⟨[], "", "", {}⟩

/-- The output of the concrete resume-with-snapshot run. -/
def outW : Train.CAIOut :=
  (Train.check_and_init envW fsCkptYaml argsResumeW).toOption.getD ⟨[], "", "", {}⟩

/-- A second CLI record for the frame claim: same `resume`, every other
interesting field changed. -/
def argsResumeW2 : Args :=
  { argsResumeW with name := "other", device := "cuda:3", epochs := 7 }

/-- The output of the concrete resume-with-snapshot run started from
`argsResumeW2`. -/
def outW2 : Train.CAIOut :=
  (Train.check_and_init envW fsCkptYaml argsResumeW2).toOption.getD ⟨[], "", "", {}⟩

/-! ### Claims about `check_and_init` -/

/-- C1: on a resume run, a checkpoint path that is not an existing file makes
`check_and_init` fail with the assertion message; an existing checkpoint
whose grandparent directory lacks `args.yaml` does not fail: the function
returns normally, a warning naming the missing file is logged, and
`args.save_dir` is set to the checkpoint's grandparent directory. -/
theorem resume_error_handling (env : Env) (fs : FS) (a : Args)
    (ht : a.resume.truthy = true) :
    (fs.isFile (Train.resolveCheckpoint env a.resume) = false →
      Train.check_and_init env fs a =
        Except.error ("the checkpoint path is not exist: "
          ++ Train.resolveCheckpoint env a.resume)) ∧
    (fs.isFile (Train.resolveCheckpoint env a.resume) = true →
      fs.pathExists (Train.resumeOptFilePath (Train.resolveCheckpoint env a.resume)) = false →
      ∃ out, Train.check_and_init env fs a = Except.ok out ∧
        Event.logWarning ("We can not find the path of "
          ++ Train.resumeOptFilePath (Train.resolveCheckpoint env a.resume)
          ++ ", we will save exp log to "
          ++ pathParent (pathParent (Train.resolveCheckpoint env a.resume))) ∈ out.trace ∧
        out.args.saveDir = pathParent (pathParent (Train.resolveCheckpoint env a.resume))) := by
  constructor
  · intro hf
    exact Train.check_and_init_error_of_resume_error env fs a _
      (Train.resume_not_file_error env fs a _ ht hf)
  · intro hf hex
    have hr := Train.resume_no_snapshot_branch env fs a (Train.masterProcess a) ht hf hex
    obtain ⟨out, hout⟩ : ∃ out, Train.check_and_init env fs a = Except.ok out := by
      unfold Train.check_and_init
      rw [hr]
      exact ⟨_, rfl⟩
    obtain ⟨t1, a1, hr2, hargs, _, htr⟩ :=
      Train.check_and_init_ok_shape env fs a out hout
    rw [hr] at hr2
    cases hr2
    refine ⟨out, hout, ?_, ?_⟩
    · rw [htr]
      simp
    · rw [hargs, Train.shape_saveDir]

/-- C1, evaluated: with no checkpoint file `check_and_init` fails with the
assertion message; with the checkpoint but no `args.yaml` it succeeds, warns,
and points `save_dir` at the grandparent directory `runs/exp5`. -/
theorem resume_error_handling_witness :
    (Train.check_and_init envW fsEmpty argsResumeW =
      Except.error ("the checkpoint path is not exist: "
        ++ Train.resolveCheckpoint envW argsResumeW.resume)) ∧
    (∃ out, Train.check_and_init envW fsCkptOnly argsResumeW = Except.ok out ∧
      Event.logWarning ("We can not find the path of "
        ++ Train.resumeOptFilePath (Train.resolveCheckpoint envW argsResumeW.resume)
        ++ ", we will save exp log to "
        ++ pathParent (pathParent (Train.resolveCheckpoint envW argsResumeW.resume))) ∈ out.trace ∧
      out.args.saveDir = pathParent (pathParent (Train.resolveCheckpoint envW argsResumeW.resume))) :=
  ⟨(resume_error_handling envW fsEmpty argsResumeW (by decide)).1 (by decide),
   (resume_error_handling envW fsCkptOnly argsResumeW (by decide)).2 (by decide) (by decide)⟩

/-- C4: with resume truthy, the checkpoint path is the resume string itself
when `args.resume` is a string, else the result of scanning with
`find_latest_checkpoint`; a successful `check_and_init` records exactly this
resolved path in `args.resume`. -/
theorem checkpoint_path_resolution (env : Env) (fs : FS) (a : Args)
    (ht : a.resume.truthy = true) :
    (∀ s, a.resume = ResumeVal.str s →
        Train.resolveCheckpoint env a.resume = s) ∧
    (∀ b, a.resume = ResumeVal.bool b →
        Train.resolveCheckpoint env a.resume = env.findLatestCheckpoint) ∧
    (∀ out, Train.check_and_init env fs a = Except.ok out →
        out.args.resume = ResumeVal.str (Train.resolveCheckpoint env a.resume)) := by
  refine ⟨?_, ?_, ?_⟩
  · intro s hs
    rw [hs]
    rfl
  · intro b hb
    rw [hb]
    rfl
  · intro out h
    obtain ⟨t1, a1, hr, hargs, hcfg, htr⟩ :=
      Train.check_and_init_ok_shape env fs a out h
    have hres := (Train.resume_ok_resolved env fs a _ t1 a1 ht hr).1
    rw [hargs, Train.shape_resume]
    exact hres

/-- C4, evaluated: an explicit string resume resolves to that path and ends
up stored in the returned `args.resume`; a boolean resume resolves to the
scan result. -/
theorem checkpoint_path_resolution_witness :
    Train.resolveCheckpoint envW argsResumeW.resume = ckptPath ∧
    Train.resolveCheckpoint envW (ResumeVal.bool true) = envW.findLatestCheckpoint ∧
    outW.args.resume = ResumeVal.str (Train.resolveCheckpoint envW argsResumeW.resume) :=
  ⟨(checkpoint_path_resolution envW fsCkptYaml argsResumeW (by decide)).1 ckptPath rfl,
   rfl,
   (checkpoint_path_resolution envW fsCkptYaml argsResumeW (by decide)).2.2 outW rfl⟩

/-- C6: whenever a resume run of `check_and_init` returns, the checkpoint
path stored into `args.resume` has passed the `os.path.isfile` assertion:
the returned path is a file of the filesystem the run consulted. -/
theorem resume_checkpoint_validated (env : Env) (fs : FS) (a : Args)
    (out : Train.CAIOut)
    (ht : a.resume.truthy = true)
    (h : Train.check_and_init env fs a = Except.ok out) :
    ∃ cp, out.args.resume = ResumeVal.str cp ∧ fs.isFile cp = true := by
  obtain ⟨t1, a1, hr, hargs, hcfg, htr⟩ :=
    Train.check_and_init_ok_shape env fs a out h
  have hres := Train.resume_ok_resolved env fs a _ t1 a1 ht hr
  refine ⟨Train.resolveCheckpoint env a.resume, ?_, hres.2⟩
  rw [hargs, Train.shape_resume]
  exact hres.1

/-- C6, evaluated: the concrete resume run returns `args.resume` set to the
checkpoint path, and that path is a file. -/
theorem resume_checkpoint_validated_witness :
    outW.args.resume = ResumeVal.str ckptPath ∧ fsCkptYaml.isFile ckptPath = true := by
  have h := resume_checkpoint_validated envW fsCkptYaml argsResumeW outW (by decide) rfl
  exact ⟨by decide, by decide⟩

/-- C9: on a resume run that finds the `args.yaml` snapshot, the returned
argument record is independent of every command-line argument other than
`resume` itself (the whole record is rebound from the snapshot), and the
`resume` field is overwritten with the resolved checkpoint path. -/
theorem resume_snapshot_frame (env : Env) (fs : FS) (a b : Args)
    (o1 o2 : Train.CAIOut)
    (hab : a.resume = b.resume) (ht : a.resume.truthy = true)
    (hex : fs.pathExists (Train.resumeOptFilePath (Train.resolveCheckpoint env a.resume)) = true)
    (h1 : Train.check_and_init env fs a = Except.ok o1)
    (h2 : Train.check_and_init env fs b = Except.ok o2) :
    o1.args = o2.args ∧
    o1.args.resume = ResumeVal.str (Train.resolveCheckpoint env a.resume) := by
  obtain ⟨t1, a1, hr1, hargs1, _, _⟩ :=
    Train.check_and_init_ok_shape env fs a o1 h1
  obtain ⟨u1, b1, hr2, hargs2, _, _⟩ :=
    Train.check_and_init_ok_shape env fs b o2 h2
  have htb : b.resume.truthy = true := by rw [← hab]; exact ht
  have hexb : fs.pathExists
      (Train.resumeOptFilePath (Train.resolveCheckpoint env b.resume)) = true := by
    rw [← hab]; exact hex
  have ha1 := Train.resume_snapshot_branch env fs a _ t1 a1 ht hex hr1
  have hb1 := Train.resume_snapshot_branch env fs b _ u1 b1 htb hexb hr2
  have hsame : a1 = b1 := by rw [ha1, hb1, ← hab]
  constructor
  · rw [hargs1, hargs2, hsame]
  · rw [hargs1, Train.shape_resume, ha1]

/-- C9, evaluated: two runs differing in every CLI field except `resume`
produce identical argument records, with `resume` rebound to the checkpoint
path. -/
theorem resume_snapshot_frame_witness :
    outW.args = outW2.args ∧
    outW.args.resume = ResumeVal.str (Train.resolveCheckpoint envW argsResumeW.resume) := by
  have h := resume_snapshot_frame envW fsCkptYaml argsResumeW argsResumeW2 outW outW2
    rfl (by decide) (by decide) rfl rfl
  exact ⟨h.1, h.2⟩

/-- C3: a completed master-process `check_and_init` run records an
`args.yaml` snapshot write into the save directory of the returned record;
and a resume run that finds the snapshot rebinds the returned arguments to
the snapshot contents (with `resume` rewritten to the checkpoint path and
image sizes normalized). -/
theorem args_yaml_snapshot (env : Env) (fs : FS) (a : Args) (out : Train.CAIOut)
    (h : Train.check_and_init env fs a = Except.ok out) :
    (Train.masterProcess a = true →
      Event.saveYamlEv (pathJoin out.args.saveDir "args.yaml") ∈ out.trace) ∧
    (a.resume.truthy = true →
      fs.pathExists (Train.resumeOptFilePath (Train.resolveCheckpoint env a.resume)) = true →
      out.args = (Train.checkSpecificShape env
        { fs.yamlArgs (Train.resumeOptFilePath (Train.resolveCheckpoint env a.resume)) with
          resume := ResumeVal.str (Train.resolveCheckpoint env a.resume) }).2) := by
  obtain ⟨t1, a1, hr, hargs, hcfg, htr⟩ :=
    Train.check_and_init_ok_shape env fs a out h
  constructor
  · intro hmp
    rw [htr, hargs, hmp]
    simp
  · intro ht hex
    have ha1 := Train.resume_snapshot_branch env fs a _ t1 a1 ht hex hr
    rw [hargs, ha1]

/-- C3, evaluated: the concrete master-process resume run writes
`runs/exp5/args.yaml` and rebinds the arguments from the snapshot. -/
theorem args_yaml_snapshot_witness :
    Event.saveYamlEv (pathJoin outW.args.saveDir "args.yaml") ∈ outW.trace ∧
    outW.args = (Train.checkSpecificShape envW
      { fsCkptYaml.yamlArgs (Train.resumeOptFilePath
          (Train.resolveCheckpoint envW argsResumeW.resume)) with
        resume := ResumeVal.str (Train.resolveCheckpoint envW argsResumeW.resume) }).2 :=
  ⟨(args_yaml_snapshot envW fsCkptYaml argsResumeW outW rfl).1 (by decide),
   (args_yaml_snapshot envW fsCkptYaml argsResumeW outW rfl).2 (by decide) (by decide)⟩

/-! ### Claims about the `torch.load` patch and `infer.py` -/

/-- C8: after the import-time rebinding `torch.load = custom_torch_load`
performed by both entry scripts, a call without a `weights_only` keyword
reaches the original loader with `weights_only=False` added (every other
keyword untouched), while a call that passes `weights_only` is forwarded
unchanged. -/
theorem torch_load_patch {α : Type} (original : Kwargs → α) (kwargs : Kwargs) :
    (kwargs.hasKey "weights_only" = true →
      custom_torch_load original kwargs = original kwargs) ∧
    (kwargs.hasKey "weights_only" = false →
      custom_torch_load original kwargs =
        original (kwargs ++ [("weights_only", PyVal.bool false)]) ∧
      Kwargs.getKey (custom_torch_load_kwargs kwargs) "weights_only" =
        some (PyVal.bool false) ∧
      ∀ k, k ≠ "weights_only" →
        Kwargs.getKey (custom_torch_load_kwargs kwargs) k = Kwargs.getKey kwargs k) := by
  constructor
  · intro h
    unfold custom_torch_load custom_torch_load_kwargs
    rw [h]
    rfl
  · intro h
    have hk : custom_torch_load_kwargs kwargs =
        kwargs ++ [("weights_only", PyVal.bool false)] := by
      unfold custom_torch_load_kwargs Kwargs.setKey
      rw [h]
      simp
    refine ⟨?_, ?_, ?_⟩
    · unfold custom_torch_load
      rw [hk]
    · rw [hk]
      exact Kwargs.getKey_append_single kwargs _ _ h
    · intro k hkk
      rw [hk]
      exact Kwargs.getKey_append_single_ne kwargs _ k _ hkk

/-- C8, evaluated: a `map_location`-only call gains `weights_only=False`; a
call passing `weights_only=True` goes through untouched. -/
theorem torch_load_patch_witness :
    custom_torch_load (fun ks => ks) [("map_location", PyVal.str "cpu")] =
      [("map_location", PyVal.str "cpu"), ("weights_only", PyVal.bool false)] ∧
    custom_torch_load (fun ks => ks) [("weights_only", PyVal.bool true)] =
      [("weights_only", PyVal.bool true)] :=
  ⟨((torch_load_patch (fun ks => ks) [("map_location", PyVal.str "cpu")]).2
      (by decide)).1,
   (torch_load_patch (fun ks => ks) [("weights_only", PyVal.bool true)]).1
      (by decide)⟩

theorem pathJoin_ne (a b : String) : pathJoin a b ≠ a := by
  intro h
  have hlen := congrArg String.length h
  rw [pathJoin, String.length_append, String.length_append] at hlen
  have h1 : ("/" : String).length = 1 := rfl
  omega

/-- C10: infer.py's `run` creates the save directory exactly when some
output is requested (`not not_save_img or save_txt`) and it does not already
exist; with `not_save_img` set and `save_txt` unset no directory at all is
created and the already-existed warning is logged regardless of the
filesystem. -/
theorem save_dir_creation (fs : FS) (p : Infer.RunArgs) :
    (Event.makedirs (Infer.runSaveDir p) ∈ Infer.run fs p ↔
      ((!p.notSaveImg || p.saveTxt) = true ∧
       fs.pathExists (Infer.runSaveDir p) = false)) ∧
    (p.notSaveImg = true → p.saveTxt = false →
      (∀ d, Event.makedirs d ∉ Infer.run fs p) ∧
      Event.logWarning "Save directory already existed" ∈ Infer.run fs p) := by
  have hne2 : Infer.runSaveDir p ≠ pathJoin (Infer.runSaveDir p) "labels" :=
    Ne.symm (pathJoin_ne _ _)
  refine ⟨?_, ?_⟩
  · by_cases h1 : p.notSaveImg = true <;> by_cases h2 : p.saveTxt = true <;>
      by_cases h3 : fs.pathExists (Infer.runSaveDir p) = true <;>
      by_cases h4 : fs.pathExists (pathJoin (Infer.runSaveDir p) "labels") = true <;>
      simp [Infer.run, h1, h2, h3, h4, hne2]
  · intro h1 h2
    constructor
    · intro d
      by_cases h3 : fs.pathExists (Infer.runSaveDir p) = true <;>
        simp [Infer.run, h1, h2, h3]
    · by_cases h3 : fs.pathExists (Infer.runSaveDir p) = true <;>
        simp [Infer.run, h1, h2, h3]

/-- A `run` parameter record requesting no output at all. -/
def runArgsNoOut : Infer.RunArgs := { notSaveImg := true, saveTxt := false }

/-- C10, evaluated: the default run on an empty filesystem creates
`runs/inference/exp`; the no-output run creates nothing and logs the
warning even though the directory does not exist. -/
theorem save_dir_creation_witness :
    Event.makedirs (Infer.runSaveDir {}) ∈ Infer.run fsEmpty {} ∧
    Event.makedirs (Infer.runSaveDir runArgsNoOut) ∉ Infer.run fsEmpty runArgsNoOut ∧
    Event.logWarning "Save directory already existed" ∈ Infer.run fsEmpty runArgsNoOut :=
  ⟨(save_dir_creation fsEmpty {}).1.mpr ⟨by decide, by decide⟩,
   ((save_dir_creation fsEmpty runArgsNoOut).2 (by decide) (by decide)).1 _,
   ((save_dir_creation fsEmpty runArgsNoOut).2 (by decide) (by decide)).2⟩

theorem resumePhase_not (e : Event) (h : e.isResumePhaseE = true) :
    e.isImgCheckE = false ∧ e.isSelectDeviceE = false ∧ e.isSeedE = false ∧
    e.isInitPGE = false ∧ e.isTrainerE = false ∧ e.isHandOffE = false := by
  cases e <;> simp_all [Event.isResumePhaseE, Event.isImgCheckE,
    Event.isSelectDeviceE, Event.isSeedE, Event.isInitPGE, Event.isTrainerE,
    Event.isHandOffE]

theorem shapePhase_not (e : Event) (h : e.isShapePhaseE = true) :
    e.isSaveDirResolvedE = false ∧ e.isSelectDeviceE = false ∧ e.isSeedE = false ∧
    e.isInitPGE = false ∧ e.isTrainerE = false ∧ e.isHandOffE = false := by
  cases e <;> simp_all [Event.isShapePhaseE, Event.isSaveDirResolvedE,
    Event.isSelectDeviceE, Event.isSeedE, Event.isInitPGE, Event.isTrainerE,
    Event.isHandOffE]

theorem shape_has_imgcheck (env : Env) (a : Args) :
    ∃ s, Event.checkImgSizeEv s 32 256 ∈ (Train.checkSpecificShape env a).1 := by
  by_cases hs : a.specificShape = true
  · exact ⟨a.height, by rw [Train.shape_trace]; simp [hs]⟩
  · exact ⟨a.imgSize, by rw [Train.shape_trace]; simp [hs]⟩

theorem shape_filter (env : Env) (a : Args) :
    ((Train.checkSpecificShape env a).1).filter Event.isImgCheckE =
      (if a.specificShape then
        [Event.checkImgSizeEv a.height 32 256, Event.checkImgSizeEv a.width 32 256]
      else [Event.checkImgSizeEv a.imgSize 32 256]) := by
  rw [Train.shape_trace]
  by_cases hs : a.specificShape = true <;> by_cases hrect : a.rect = true <;>
    simp [hs, hrect, Event.isImgCheckE, List.filter]

theorem run_counts (fsI : FS) (p : Infer.RunArgs) :
    (Infer.run fsI p).count Event.constructInferer = 1 ∧
    (Infer.run fsI p).count Event.callInfer = 1 := by
  by_cases h1 : p.notSaveImg = true <;> by_cases h2 : p.saveTxt = true <;>
    by_cases h3 : fsI.pathExists (Infer.runSaveDir p) = true <;>
    by_cases h4 : fsI.pathExists (pathJoin (Infer.runSaveDir p) "labels") = true <;>
    simp [Infer.run, h1, h2, h3, h4, List.count_append, List.count_cons, List.count_nil]

/-- C7: every `infer.py` `run` constructs exactly one `Inferer` and calls its
`infer` exactly once; every completed `train.py` `main` constructs exactly
one `Trainer` and calls exactly one of its methods: `calibrate` when both
`quant` and `calib` are set, otherwise `train`, never both. -/
theorem single_trainer_single_call (env : Env) (fs : FS) (aIn : Args)
    (out : Train.CAIOut) (tr : List Event) (fsI : FS) (p : Infer.RunArgs)
    (hc : Train.check_and_init env fs (Train.withEnvs env aIn) = Except.ok out)
    (hm : Train.main env fs aIn = Except.ok tr) :
    ((Infer.run fsI p).count Event.constructInferer = 1 ∧
     (Infer.run fsI p).count Event.callInfer = 1) ∧
    tr.count Event.constructTrainer = 1 ∧
    ((out.args.quant && out.args.calib) = true →
      tr.count Event.callCalibrate = 1 ∧ tr.count Event.callTrain = 0) ∧
    ((out.args.quant && out.args.calib) = false →
      tr.count Event.callTrain = 1 ∧ tr.count Event.callCalibrate = 0) := by
  obtain ⟨out2, hc2, htr⟩ := Train.main_ok_shape env fs aIn tr hm
  rw [hc] at hc2
  cases hc2
  have hz := Train.cai_count_zero env fs _ out hc
  refine ⟨run_counts fsI p, ?_, ?_, ?_⟩
  · rw [htr]
    by_cases hq : ((Train.withEnvs env out.args).quant &&
        (Train.withEnvs env out.args).calib) = true <;>
    by_cases hlr : (((Train.withEnvs env out.args).localRank != -1)) = true <;>
    by_cases hd : (decide ((Train.withEnvs env out.args).worldSize > 1) &&
        ((Train.withEnvs env out.args).rank == 0)) = true <;>
    simp [hq, hlr, hd, List.count_append, hz Event.constructTrainer rfl]
  · intro hqc
    rw [htr]
    have hq : ((Train.withEnvs env out.args).quant &&
        (Train.withEnvs env out.args).calib) = true := hqc
    by_cases hlr : (((Train.withEnvs env out.args).localRank != -1)) = true <;>
      simp [hq, hlr, List.count_append, hz Event.callCalibrate rfl,
        hz Event.callTrain rfl]
  · intro hqc
    rw [htr]
    have hq : ((Train.withEnvs env out.args).quant &&
        (Train.withEnvs env out.args).calib) = false := hqc
    by_cases hlr : (((Train.withEnvs env out.args).localRank != -1)) = true <;>
    by_cases hd : (decide ((Train.withEnvs env out.args).worldSize > 1) &&
        ((Train.withEnvs env out.args).rank == 0)) = true <;>
    simp [hq, hlr, hd, List.count_append, hz Event.callCalibrate rfl,
      hz Event.callTrain rfl]

/-- C7, evaluated: the default `run` and the two concrete training runs show
one `Inferer`, one `Trainer`, and exactly one hand-off call each. -/
theorem single_trainer_single_call_witness :
    (Infer.run fsEmpty {}).count Event.constructInferer = 1 ∧
    trDflt.count Event.constructTrainer = 1 ∧
    trDflt.count Event.callTrain = 1 ∧ trDflt.count Event.callCalibrate = 0 ∧
    trQC.count Event.callCalibrate = 1 ∧ trQC.count Event.callTrain = 0 := by
  have h1 := single_trainer_single_call envW fsEmpty argsDflt outDflt trDflt
    fsEmpty {} rfl rfl
  have h2 := single_trainer_single_call envW fsEmpty argsQC outQC trQC
    fsEmpty {} rfl rfl
  exact ⟨h1.1.1, h1.2.1, (h1.2.2.2 (by decide)).1, (h1.2.2.2 (by decide)).2,
    (h2.2.2.1 (by decide)).1, (h2.2.2.1 (by decide)).2⟩

/-- C2 as amended: the process group is initialized exactly when
`local_rank != -1`, but it is torn down only when `world_size > 1` and
`rank == 0` and the run did not take the calibrate early return. -/
theorem process_group_teardown (env : Env) (fs : FS) (aIn : Args)
    (out : Train.CAIOut) (tr : List Event)
    (hc : Train.check_and_init env fs (Train.withEnvs env aIn) = Except.ok out)
    (hm : Train.main env fs aIn = Except.ok tr) :
    ((∃ bk r w, Event.initProcessGroup bk r w ∈ tr) ↔ env.getEnvs.1 ≠ -1) ∧
    (Event.destroyProcessGroup ∈ tr ↔
      ((out.args.quant && out.args.calib) = false ∧
       env.getEnvs.2.2 > 1 ∧ env.getEnvs.2.1 = 0)) := by
  obtain ⟨out2, hc2, htr⟩ := Train.main_ok_shape env fs aIn tr hm
  rw [hc] at hc2
  cases hc2
  have hnoI : ∀ bk r w, Event.initProcessGroup bk r w ∉ out.trace := by
    intro bk r w hmem
    have hsu := Train.cai_trace_setup env fs _ out hc _ hmem
    simp [Event.isSetupE] at hsu
  have hnoD : Event.destroyProcessGroup ∉ out.trace :=
    Train.cai_not_mem env fs _ out hc _ rfl
  rw [htr]
  by_cases hq1 : out.args.quant = true <;>
  by_cases hq2 : out.args.calib = true <;>
  by_cases hlr : env.getEnvs.1 = -1 <;>
  by_cases hws : env.getEnvs.2.2 > 1 <;>
  by_cases hrk : env.getEnvs.2.1 = 0 <;>
  constructor <;>
    simp_all [Train.withEnvs_localRank, Train.withEnvs_worldSize,
      Train.withEnvs_rank, Train.withEnvs_quant, Train.withEnvs_calib,
      List.mem_append]

/-- C2, evaluated amended claim: the rank-0 two-process run both joins and
destroys the group. -/
theorem process_group_teardown_witness :
    Event.destroyProcessGroup ∈ trPG0 ∧
    Event.initProcessGroup "gloo" 0 2 ∈ trPG0 :=
  ⟨(process_group_teardown envPG0 fsEmpty argsDflt outPG0 trPG0 rfl rfl).2.mpr
     ⟨by decide, by decide, by decide⟩,
   by decide⟩

/-- C5: every completed run of train.py performs its setup steps in program
order: save-directory resolution first, then image-size validation
(`check_img_size` with stride 32 and floor 256, applied to `height` and
`width` when `specific_shape` is set, else to `img_size`), then device
selection, then RNG seeding, then (exactly when `local_rank != -1`) the
process-group initialization, and only then the `Trainer` construction
followed by the hand-off call. -/
theorem setup_step_order (env : Env) (fs : FS) (aIn : Args)
    (t1 : List Event) (a1 : Args) (tr : List Event)
    (hr : Train.resumeOrNewSaveDir env fs (Train.withEnvs env aIn)
            (Train.masterProcess (Train.withEnvs env aIn)) = Except.ok (t1, a1))
    (hm : Train.main env fs aIn = Except.ok tr) :
    OccursBefore tr Event.isSaveDirResolvedE Event.isImgCheckE ∧
    OccursBefore tr Event.isImgCheckE Event.isSelectDeviceE ∧
    OccursBefore tr Event.isSelectDeviceE Event.isSeedE ∧
    OccursBefore tr Event.isSeedE Event.isTrainerE ∧
    (env.getEnvs.1 ≠ -1 →
      OccursBefore tr Event.isSeedE Event.isInitPGE ∧
      OccursBefore tr Event.isInitPGE Event.isTrainerE) ∧
    OccursBefore tr Event.isTrainerE Event.isHandOffE ∧
    tr.filter Event.isImgCheckE =
      (if a1.specificShape then
        [Event.checkImgSizeEv a1.height 32 256, Event.checkImgSizeEv a1.width 32 256]
      else [Event.checkImgSizeEv a1.imgSize 32 256]) := by
  obtain ⟨out, hc, htr⟩ := Train.main_ok_shape env fs aIn tr hm
  obtain ⟨t1x, a1x, hrx, hargs, hcfg, htrace⟩ :=
    Train.check_and_init_ok_shape env fs (Train.withEnvs env aIn) out hc
  rw [hr] at hrx
  cases hrx
  have ht1Phase := Train.resume_trace_phase env fs (Train.withEnvs env aIn) _ t1 a1 hr
  have ht1Save : ∃ i, firstIdx Event.isSaveDirResolvedE t1 = some i := by
    obtain ⟨d, hd⟩ :=
      Train.resume_trace_has_saveDirResolved env fs (Train.withEnvs env aIn) _ t1 a1 hr
    exact firstIdx_isSome_of_mem _ t1 _ hd rfl
  have hN1img : firstIdx Event.isImgCheckE t1 = none :=
    firstIdx_eq_none_of_forall _ _ (fun e he => (resumePhase_not e (ht1Phase e he)).1)
  have hN1sel : firstIdx Event.isSelectDeviceE t1 = none :=
    firstIdx_eq_none_of_forall _ _ (fun e he => (resumePhase_not e (ht1Phase e he)).2.1)
  have hN1seed : firstIdx Event.isSeedE t1 = none :=
    firstIdx_eq_none_of_forall _ _ (fun e he => (resumePhase_not e (ht1Phase e he)).2.2.1)
  have hN1pg : firstIdx Event.isInitPGE t1 = none :=
    firstIdx_eq_none_of_forall _ _ (fun e he => (resumePhase_not e (ht1Phase e he)).2.2.2.1)
  have hN1tr : firstIdx Event.isTrainerE t1 = none :=
    firstIdx_eq_none_of_forall _ _ (fun e he => (resumePhase_not e (ht1Phase e he)).2.2.2.2.1)
  have hN1ho : firstIdx Event.isHandOffE t1 = none :=
    firstIdx_eq_none_of_forall _ _ (fun e he => (resumePhase_not e (ht1Phase e he)).2.2.2.2.2)
  have hSphase := Train.shape_trace_phase env a1
  have hSimg : ∃ i,
      firstIdx Event.isImgCheckE (Train.checkSpecificShape env a1).1 = some i := by
    obtain ⟨s, hmem⟩ := shape_has_imgcheck env a1
    exact firstIdx_isSome_of_mem _ _ _ hmem rfl
  have hSsel : firstIdx Event.isSelectDeviceE (Train.checkSpecificShape env a1).1 = none :=
    firstIdx_eq_none_of_forall _ _ (fun e he => (shapePhase_not e (hSphase e he)).2.1)
  have hSseed : firstIdx Event.isSeedE (Train.checkSpecificShape env a1).1 = none :=
    firstIdx_eq_none_of_forall _ _ (fun e he => (shapePhase_not e (hSphase e he)).2.2.1)
  have hSpg : firstIdx Event.isInitPGE (Train.checkSpecificShape env a1).1 = none :=
    firstIdx_eq_none_of_forall _ _ (fun e he => (shapePhase_not e (hSphase e he)).2.2.2.1)
  have hStr : firstIdx Event.isTrainerE (Train.checkSpecificShape env a1).1 = none :=
    firstIdx_eq_none_of_forall _ _ (fun e he => (shapePhase_not e (hSphase e he)).2.2.2.2.1)
  have hSho : firstIdx Event.isHandOffE (Train.checkSpecificShape env a1).1 = none :=
    firstIdx_eq_none_of_forall _ _ (fun e he => (shapePhase_not e (hSphase e he)).2.2.2.2.2)
  have hft1 : t1.filter Event.isImgCheckE = [] :=
    List.filter_eq_nil_iff.mpr
      (fun e he => by
        rw [(resumePhase_not e (ht1Phase e he)).1]
        exact Bool.false_ne_true)
  have hT4 : ∀ (c : Bool) (s : String) (p : Event → Bool),
      (∀ x, p (Event.saveYamlEv x) = false) →
      firstIdx p (if c = true then [Event.saveYamlEv s] else []) = none := by
    intro c s p hp
    cases c
    · rfl
    · simp [firstIdx, hp]
  have hTPGtr : ∀ (c : Bool) (x : Int) (m bk : String) (r w : Int),
      firstIdx Event.isTrainerE
        (if c = true then [Event.setCudaDevice x, Event.logInfo m,
          Event.initProcessGroup bk r w] else []) = none := by
    intro c x m bk r w
    cases c <;> rfl
  have hTPGho : ∀ (c : Bool) (x : Int) (m bk : String) (r w : Int),
      firstIdx Event.isHandOffE
        (if c = true then [Event.setCudaDevice x, Event.logInfo m,
          Event.initProcessGroup bk r w] else []) = none := by
    intro c x m bk r w
    cases c <;> rfl
  have hTAILho : ∀ (c d : Bool),
      ∃ j, firstIdx Event.isHandOffE
        (if c = true then [Event.callCalibrate]
         else [Event.callTrain] ++
           (if d = true then [Event.logInfo "Destroying process group... ",
             Event.destroyProcessGroup] else [])) = some j := by
    intro c d
    cases c
    · exact ⟨0, rfl⟩
    · exact ⟨0, rfl⟩
  have hfT4 : ∀ (c : Bool) (s : String),
      List.filter Event.isImgCheckE (if c = true then [Event.saveYamlEv s] else []) = [] := by
    intro c s
    cases c <;> rfl
  have hfTPG : ∀ (c : Bool) (x : Int) (m bk : String) (r w : Int),
      List.filter Event.isImgCheckE
        (if c = true then [Event.setCudaDevice x, Event.logInfo m,
          Event.initProcessGroup bk r w] else []) = [] := by
    intro c x m bk r w
    cases c <;> rfl
  have hfTAIL : ∀ (c d : Bool),
      List.filter Event.isImgCheckE
        (if c = true then [Event.callCalibrate]
         else [Event.callTrain] ++
           (if d = true then [Event.logInfo "Destroying process group... ",
             Event.destroyProcessGroup] else [])) = [] := by
    intro c d
    cases c <;> cases d <;> rfl
  rw [htrace] at htr
  subst htr
  simp only [List.append_assoc]
  refine ⟨?_, ?_, ?_, ?_, ?_, ?_, ?_⟩
  · exact occursBefore_append_right t1 _ _ _ ht1Save hN1img
      (exists_firstIdx_append_left _ _ _ hSimg)
  · apply occursBefore_append_left t1 _ _ _ hN1img hN1sel
    exact occursBefore_append_right _ _ _ _ hSimg hSsel
      (exists_firstIdx_append_left _ _ _ ⟨1, rfl⟩)
  · apply occursBefore_append_left t1 _ _ _ hN1sel hN1seed
    apply occursBefore_append_left _ _ _ _ hSsel hSseed
    exact occursBefore_append_of_left _ _ _ _ ⟨1, 2, rfl, rfl, by omega⟩
  · exact occursBefore_append_left t1 _ _ _ hN1seed hN1tr
      (occursBefore_append_left _ _ _ _ hSseed hStr
        (occursBefore_append_right _ _ _ _ ⟨2, rfl⟩ rfl
          (exists_firstIdx_append_right _ _ _ (hT4 _ _ _ (fun x => rfl))
            (exists_firstIdx_append_right _ _ _ rfl
              (exists_firstIdx_append_right _ _ _ (hTPGtr _ _ _ _ _ _)
                (exists_firstIdx_append_left _ _ _ ⟨0, rfl⟩))))))
  · intro hlr
    have hcond : ((Train.withEnvs env out.args).localRank != -1) = true := by
      rw [Train.withEnvs_localRank]
      simpa using hlr
    rw [if_pos hcond]
    constructor
    · exact occursBefore_append_left t1 _ _ _ hN1seed hN1pg
        (occursBefore_append_left _ _ _ _ hSseed hSpg
          (occursBefore_append_right _ _ _ _ ⟨2, rfl⟩ rfl
            (exists_firstIdx_append_right _ _ _ (hT4 _ _ _ (fun x => rfl))
              (exists_firstIdx_append_right _ _ _ rfl
                (exists_firstIdx_append_left _ _ _ ⟨2, rfl⟩)))))
    · exact occursBefore_append_left t1 _ _ _ hN1pg hN1tr
        (occursBefore_append_left _ _ _ _ hSpg hStr
          (occursBefore_append_left _ _ _ _ rfl rfl
            (occursBefore_append_left _ _ _ _ (hT4 _ _ _ (fun x => rfl))
              (hT4 _ _ _ (fun x => rfl))
              (occursBefore_append_left _ _ _ _ rfl rfl
                (occursBefore_append_right _ _ _ _ ⟨2, rfl⟩ rfl
                  (exists_firstIdx_append_left _ _ _ ⟨0, rfl⟩))))))
  · exact occursBefore_append_left t1 _ _ _ hN1tr hN1ho
      (occursBefore_append_left _ _ _ _ hStr hSho
        (occursBefore_append_left _ _ _ _ rfl rfl
          (occursBefore_append_left _ _ _ _ (hT4 _ _ _ (fun x => rfl))
            (hT4 _ _ _ (fun x => rfl))
            (occursBefore_append_left _ _ _ _ rfl rfl
              (occursBefore_append_left _ _ _ _ (hTPGtr _ _ _ _ _ _)
                (hTPGho _ _ _ _ _ _)
                (occursBefore_append_right _ _ _ _ ⟨0, rfl⟩ rfl (hTAILho _ _)))))))
  · simp only [List.filter_append, hft1, shape_filter env a1, hfT4, hfTPG, hfTAIL,
      List.append_nil, List.nil_append]
    simp [List.filter_cons, Event.isImgCheckE]

/-- The resume/save-dir block result of the master distributed run. -/
def resPG0 : List Event × Args :=
  (Train.resumeOrNewSaveDir envPG0 fsEmpty (Train.withEnvs envPG0 argsDflt)
    (Train.masterProcess (Train.withEnvs envPG0 argsDflt))).toOption.getD ([], {})

/-- C5, evaluated on the master distributed run: the setup steps appear in
order and the single image-size check validates `img_size = 640` with
stride 32 and floor 256. -/
theorem setup_step_order_witness :
    OccursBefore trPG0 Event.isSaveDirResolvedE Event.isImgCheckE ∧
    OccursBefore trPG0 Event.isSeedE Event.isInitPGE ∧
    OccursBefore trPG0 Event.isInitPGE Event.isTrainerE ∧
    OccursBefore trPG0 Event.isTrainerE Event.isHandOffE ∧
    trPG0.filter Event.isImgCheckE = [Event.checkImgSizeEv 640 32 256] := by
  have h := setup_step_order envPG0 fsEmpty argsDflt resPG0.1 resPG0.2 trPG0 rfl rfl
  refine ⟨h.1, (h.2.2.2.2.1 (by decide)).1, (h.2.2.2.2.1 (by decide)).2,
    h.2.2.2.2.2.1, ?_⟩
  rw [h.2.2.2.2.2.2]
  rfl

/-- C2, counterexample to the claim as stated: a worker with local_rank 1,
rank 1, world_size 2 joins the process group but the run ends without any
`destroy_process_group`, because the teardown is guarded by
`world_size > 1 and rank == 0`. -/
theorem process_group_counterexample :
    Train.main envPG fsEmpty argsDflt = Except.ok trPG ∧
    Event.initProcessGroup "gloo" 1 2 ∈ trPG ∧
    Event.destroyProcessGroup ∉ trPG :=
  ⟨rfl, by decide, by decide⟩

end YOLOv6
